import Mathlib

/-!
# Verification of the DIDRepChecker scraping pipeline

A shallow embedding of the core functions of `DIDRepChecker.py`
(phone-number normalization, input reading with header detection,
the token-bucket rate limiter, the 429-handling path of the fetch
worker, the HTML field extractor, and batched CSV output), together
with theorems checking the specification's claims against them.

Conventions:
* Python strings are modelled as `List Char` (with `String` wrappers
  where convenient); `str.strip()` and friends are translated
  explicitly.
* Wall-clock time and token counts are modelled as rationals (`ℚ`);
  the Python floats are used only for bookkeeping, never for
  bit-level tricks, so exact rational arithmetic is faithful.
* `asyncio` suspension is modelled by explicit "wait duration"
  results; interleavings are modelled as lists of atomic operations.
* The lxml XPath engine is abstracted as an oracle
  `xpath : String → Except Unit (List String)` (`Except.error` models
  a selector-level exception, a missing tree models `html.fromstring`
  raising); everything the Python code does *around* the oracle is
  translated literally.
-/

namespace DIDRep

/-! ## Python string helpers -/

/-- Python `str.strip()` / `str.strip(chars)`: drop characters satisfying
`p` from both ends of the list. -/
def stripEnds (p : Char → Bool) (s : List Char) : List Char :=
  ((s.dropWhile p).reverse.dropWhile p).reverse

/-- Python `str.strip()` (whitespace from both ends). -/
def pyStrip (s : List Char) : List Char :=
  stripEnds (fun c => c.isWhitespace) s

/-- `line.split(',')[0]`: the characters before the first comma. -/
def firstField (line : List Char) : List Char :=
  line.takeWhile (fun c => c ≠ ',')

/-- `parts[0].strip().strip('"').strip("'")` as done by `read_numbers`. -/
def extractCell (line : List Char) : List Char :=
  stripEnds (fun c => c = '\'')
    (stripEnds (fun c => c = '"') (pyStrip (firstField line)))

/-! ## `clean_number` (DIDRepChecker.py lines 219–231) -/

/-- `clean_number`: keep only digit characters, then drop a leading `'1'`
when exactly 11 digits remain. -/
def clean_number (number : List Char) : List Char :=
  let cleaned := number.filter Char.isDigit
  if cleaned.head? = some '1' ∧ cleaned.length = 11 then
    cleaned.tail
  else
    cleaned

/-- The acceptance test of the `read_numbers` loop: a cleaned value is kept
as a phone record iff it has exactly 10 digits. -/
def validRecord (raw : List Char) : Bool :=
  (clean_number raw).length = 10

/-! ## `read_numbers` (DIDRepChecker.py lines 251–324) -/

/-- State of the `read_numbers` loop: accumulated numbers, rejected-line
count, 1-based line counter, whether the next non-blank line is the first
one, and whether a header row was detected. -/
structure ReadState where
  numbers : List (List Char)
  skipped : Nat
  lineCount : Nat
  firstLine : Bool
  hasHeader : Bool
deriving Repr, DecidableEq

def initRead : ReadState :=
  { numbers := [], skipped := 0, lineCount := 0,
    firstLine := true, hasHeader := false }

/-- The header-detection heuristic applied to the first cell of the first
non-blank line: letters present, or fewer than 7 characters, or no digit at
all, or fewer than 10 digits after cleaning. -/
def isHeaderCell (cell : List Char) : Bool :=
  cell.any Char.isAlpha || decide (cell.length < 7) ||
    !cell.any Char.isDigit || decide ((clean_number cell).length < 10)

/-- The data-extraction tail of the loop body: append the cleaned number
when it has exactly 10 digits, count a rejection when it is non-empty but
not 10 digits, and otherwise do nothing. -/
def processData (st : ReadState) (line : List Char) : ReadState :=
  let cleaned := clean_number (extractCell line)
  if cleaned.length = 10 then
    { st with numbers := st.numbers ++ [cleaned] }
  else if cleaned ≠ [] then
    { st with skipped := st.skipped + 1 }
  else
    st

/-- The `if has_header and line_count == 1: continue` guard followed by
data extraction (the loop body after the first-line header check). -/
def afterHeaderCheck (st : ReadState) (line : List Char) : ReadState :=
  if st.hasHeader = true ∧ st.lineCount = 1 then st
  else processData st line

/-- One iteration of the `read_numbers` loop on a raw input line. -/
def processLine (st : ReadState) (rawLine : List Char) : ReadState :=
  let lineCount := st.lineCount + 1
  let line := pyStrip rawLine
  if line = [] then
    { st with lineCount := lineCount }
  else if st.firstLine then
    if isHeaderCell (extractCell line) then
      { st with lineCount := lineCount, firstLine := false, hasHeader := true }
    else
      afterHeaderCheck
        { st with lineCount := lineCount, firstLine := false } line
  else
    afterHeaderCheck { st with lineCount := lineCount } line

/-- `read_numbers` on the lines of a successfully opened file. -/
def read_numbers_lines (lines : List (List Char)) : ReadState :=
  lines.foldl processLine initRead

/-- `read_numbers` at the file boundary: `none` models a file that cannot
be opened or read; the exception handler returns an empty result set. -/
def read_numbers (input : Option (List (List Char))) : ReadState :=
  match input with
  | none => initRead
  | some lines => read_numbers_lines lines

/-! ## `RateLimiter` (DIDRepChecker.py lines 479–519)

Time and token counts are rationals; an `acquire` call is modelled as a
function of the wall-clock instant `now` at which it runs, returning the
total duration the caller is suspended together with the state after the
call. -/

structure RateLimiter where
  rate : ℚ
  capacity : ℚ
  tokens : ℚ
  updated_at : ℚ
  cooldown_until : ℚ
deriving Repr, DecidableEq

/-- `RateLimiter.__init__`: capacity is the rate floored at 1, the bucket
starts full, and no cooldown is set. -/
def mkRateLimiter (rate_per_second : ℚ) (now : ℚ) : RateLimiter :=
  { rate := rate_per_second
    capacity := max rate_per_second 1
    tokens := max rate_per_second 1
    updated_at := now
    cooldown_until := 0 }

/-- `RateLimiter.acquire`, run atomically at instant `now`: wait out any
cooldown, refill by elapsed time, snap to capacity after a token-deficit
sleep, then deduct one token. Returns (total suspension time, new state). -/
def RateLimiter.acquire (st : RateLimiter) (now : ℚ) : ℚ × RateLimiter :=
  let cdWait := max 0 (st.cooldown_until - now)
  let now1 := now + cdWait
  let tokens1 := min st.capacity (st.tokens + (now1 - st.updated_at) * st.rate)
  if tokens1 < 1 then
    let sleepT := (1 - tokens1) / max st.rate (1 / 1000000)
    (cdWait + sleepT,
      { st with tokens := st.capacity - 1, updated_at := now1 + sleepT })
  else
    (cdWait, { st with tokens := tokens1 - 1, updated_at := now1 })

/-- `RateLimiter.record_429`: set the cooldown and reduce the tokens by
half the configured rate, floored at 0. -/
def RateLimiter.record_429 (st : RateLimiter) (now : ℚ)
    (backoff_seconds : ℚ := 10) : RateLimiter :=
  { st with cooldown_until := now + backoff_seconds,
            tokens := max 0 (st.tokens - st.rate * (1 / 2)) }

/-! ### Interleaving model

`acquire` contains two `await` points; between them other tasks may run.
The mutations it performs are therefore split into the two atomic segments
the event loop actually executes: the refill segment (which also deducts
when no sleep is needed) and the post-sleep snap segment. `record_429` has
no await and is one atomic segment. An interleaved history is any list of
such segments. -/

/-- The refill segment of `acquire` executed at instant `now`: refill from
elapsed time, then either deduct (enough tokens) or leave the deficit for
the snap segment. -/
def rlRefillStep (st : RateLimiter) (now : ℚ) : RateLimiter :=
  let tokens1 := min st.capacity (st.tokens + (now - st.updated_at) * st.rate)
  if tokens1 < 1 then { st with tokens := tokens1, updated_at := now }
  else { st with tokens := tokens1 - 1, updated_at := now }

/-- The post-sleep snap segment of `acquire`: reset to capacity, refresh
the refill time, deduct one. -/
def rlSnapStep (st : RateLimiter) (now : ℚ) : RateLimiter :=
  { st with tokens := st.capacity - 1, updated_at := now }

/-- One atomic segment of limiter activity in an interleaved history. -/
inductive RLOp where
  | refill (now : ℚ)
  | snap (now : ℚ)
  | throttle (now : ℚ) (backoff : ℚ)
deriving Repr, DecidableEq

def rlApply (st : RateLimiter) : RLOp → RateLimiter
  | .refill now => rlRefillStep st now
  | .snap now => rlSnapStep st now
  | .throttle now b => st.record_429 now b

def rlRun (st : RateLimiter) (ops : List RLOp) : RateLimiter :=
  ops.foldl rlApply st

/-- A history is admissible when every refill segment runs at an instant
no earlier than the last refill timestamp (the clock is monotone and
`updated_at` is always a past clock reading). -/
def rlOpsOK (st : RateLimiter) : List RLOp → Prop
  | [] => True
  | op :: rest =>
      (match op with
        | .refill now => st.updated_at ≤ now
        | .snap _ => True
        | .throttle _ _ => True) ∧ rlOpsOK (rlApply st op) rest

/-- The token-count invariant claimed by the spec. -/
def RLInv (st : RateLimiter) : Prop :=
  0 ≤ st.tokens ∧ st.tokens ≤ st.capacity

/-- `n` consecutive `acquire` calls, all issued at the same instant `now`
(the sequential back-to-back pattern of the spec's test property):
collects each call's suspension time. -/
def acquireN : Nat → RateLimiter → ℚ → List ℚ × RateLimiter
  | 0, st, _ => ([], st)
  | n + 1, st, now =>
      let p := st.acquire now
      let q := acquireN n p.2 now
      (p.1 :: q.1, q.2)

/-! ## `XPATHS` (DIDRepChecker.py lines 168–194) and
`parse_html_fast` (lines 400–448)

The lxml engine is abstracted as an oracle mapping an XPath expression to
either its list of (already text-extracted) results or a selector-level
exception; a missing oracle models `html.fromstring` itself raising. All
control flow around the oracle is translated literally. -/

/-- Python `str.strip()` on a `String`. -/
def pyTrim (s : String) : String :=
  (pyStrip s.toList).asString

/-- A parsed document, abstracted as an XPath evaluation oracle. -/
def XPathTree : Type := String → Except Unit (List String)

def reputationPaths : List String :=
  ["//div[@id=\"userReputation\"]/h3/text()",
   "//div[contains(@class, \"reputation\")]/h3/text()",
   "//h3[contains(text(), \"Reputation\")]/../text()",
   "//div[contains(@class, \"score\") or contains(@class, \"rating\")]/text()",
   "//span[contains(@class, \"reputation\")]/text()"]

def userReportsPaths : List String :=
  ["//div[@id=\"userReports\"]/h3/text()",
   "//div[contains(@class, \"reports\")]/h3/text()",
   "//h3[contains(text(), \"Reports\")]/../text()",
   "//div[contains(text(), \"reports\")]/text()"]

def totalCallsPaths : List String :=
  ["//div[@id=\"totalCall\"]/h3/text()",
   "//div[contains(@class, \"calls\")]/h3/text()",
   "//h3[contains(text(), \"Calls\")]/../text()",
   "//div[contains(text(), \"calls\")]/text()"]

def lastCallPaths : List String :=
  ["//div[@id=\"lastCall\"]/h3/text()",
   "//div[contains(@class, \"last\")]/h3/text()",
   "//h3[contains(text(), \"Last\")]/../text()",
   "//div[contains(text(), \"last\")]/text()"]

def XPATHS : List (String × List String) :=
  [("reputation", reputationPaths),
   ("user_reports", userReportsPaths),
   ("total_calls", totalCallsPaths),
   ("last_call", lastCallPaths)]

/-- The inner selector loop of `parse_html_fast`: evaluate each candidate
XPath in order; on an exception or an empty result list continue; take the
head result, strip it, and stop at the first non-empty text; default to
the empty string. -/
def extractField (xp : XPathTree) : List String → String
  | [] => ""
  | p :: rest =>
      match xp p with
      | .error _ => extractField xp rest
      | .ok [] => extractField xp rest
      | .ok (first :: _) =>
          if pyTrim first = "" then extractField xp rest else pyTrim first

/-- `parse_html_fast`: `none` models `html.fromstring` raising (the outer
exception handler); otherwise build the field map in insertion order,
defaulting an unmatched `"reputation"` to `"Not Found"`. -/
def parse_html_fast (tree : Option XPathTree) (phone_number : String)
    (scraped_at : String) : List (String × String) :=
  match tree with
  | none =>
      [("phone_number", phone_number), ("reputation", "Parse Error"),
       ("user_reports", ""), ("total_calls", ""), ("last_call", ""),
       ("scraped_at", scraped_at)]
  | some xp =>
      ("phone_number", phone_number) ::
        (XPATHS.map (fun kv =>
          (kv.1,
            if kv.1 = "reputation" ∧ extractField xp kv.2 = ""
            then "Not Found" else extractField xp kv.2)))
        ++ [("scraped_at", scraped_at)]

/-- Declarative reading of the spec sentence: the first selector whose
evaluation yields a non-empty stripped text result, if any. -/
def firstNonEmptyStripped (xp : XPathTree) (paths : List String) :
    Option String :=
  paths.findSome? (fun p =>
    match xp p with
    | .ok (first :: _) =>
        if pyTrim first = "" then none else some (pyTrim first)
    | _ => none)

/-! ## `fetch_single` (DIDRepChecker.py lines 537–678)

The retry loop is modelled as a recursion over the sequence of per-attempt
observations (one HTTP response or one network-level exception per
iteration); an empty remaining sequence models the `for` loop running out
of attempts. Counter state is threaded explicitly; the attempt index
mirrors the loop variable. -/

/-- The `stats` counters (DIDRepChecker.py lines 197–204). -/
structure Stats where
  total : Nat
  success : Nat
  failed : Nat
  rate_limited : Nat
  skipped_invalid : Nat
deriving Repr, DecidableEq

def initStats : Stats :=
  { total := 0, success := 0, failed := 0, rate_limited := 0,
    skipped_invalid := 0 }

/-- What one iteration of the retry loop observes: an HTTP response
(status, body text, parse-oracle for the body) or a network-level
exception (timeout, connection failure, or any other exception). -/
inductive AttemptEvent where
  | response (status : Nat) (body : String) (tree : Option XPathTree)
  | netError

/-- The block-indicator substrings scanned on a 200 body. -/
def block_indicators : List String :=
  ["captcha", "access denied", "cloudflare",
   "security check", "robot", "blocked",
   "please verify", "unusual traffic"]

/-- Python `needle in hay` on character lists. -/
def listContainsSub (hay needle : List Char) : Bool :=
  (List.range (hay.length + 1)).any
    (fun i => needle.isPrefixOf (hay.drop i))

/-- The `any(indicator in content_lower ...)` scan, with the body
lowercased first. -/
def hasBlockIndicator (body : String) : Bool :=
  block_indicators.any (fun ind =>
    listContainsSub (body.toList.map Char.toLower) ind.toList)

/-- The failure-row shape returned by every non-success branch. -/
def errorRow (phone reputation ts : String) : List (String × String) :=
  [("phone_number", phone), ("reputation", reputation),
   ("user_reports", ""), ("total_calls", ""), ("last_call", ""),
   ("scraped_at", ts)]

/-- The markers treated as "no data found" by the success branch. -/
def noDataMarkers : List String := ["Parse Error", "Not Found", ""]

/-- The retry loop of `fetch_single`: classify each observed event in
source order (403, 429, 200 with block scan / size check / parse, other
4xx, fall-through retry), updating the counters exactly where the source
does; exhaustion of attempts returns the `"Error"` row. -/
def fetchGo (phone ts : String) :
    List AttemptEvent → Nat → Stats → List (String × String) × Stats
  | [], _, s =>
      (errorRow phone "Error" ts, { s with failed := s.failed + 1 })
  | ev :: rest, attempt, s =>
      match ev with
      | .netError => fetchGo phone ts rest (attempt + 1) s
      | .response status body tree =>
          if status = 403 then
            (errorRow phone "Blocked" ts, { s with failed := s.failed + 1 })
          else if status = 429 then
            fetchGo phone ts rest (attempt + 1)
              { s with rate_limited := s.rate_limited + 1 }
          else if status = 200 then
            if hasBlockIndicator body then
              (errorRow phone "Blocked" ts,
                { s with failed := s.failed + 1 })
            else if body.length < 1000 then
              (errorRow phone "Empty Response" ts,
                { s with failed := s.failed + 1 })
            else
              if ((parse_html_fast tree phone ts).lookup "reputation").getD ""
                  ∈ noDataMarkers then
                (parse_html_fast tree phone ts, s)
              else
                (parse_html_fast tree phone ts,
                  { s with success := s.success + 1 })
          else if 400 ≤ status ∧ status < 500 then
            (errorRow phone ("HTTP " ++ toString status) ts,
              { s with failed := s.failed + 1 })
          else
            fetchGo phone ts rest (attempt + 1) s

/-- `fetch_single` for one record: run the retry loop from attempt 0. -/
def fetch_single (phone ts : String) (events : List AttemptEvent)
    (s : Stats) : List (String × String) × Stats :=
  fetchGo phone ts events 0 s

/-- The 429 branch of `fetch_single` (lines 577–593) acting on the shared
limiter at instant `now`, with jitter draw `jitter` on attempt `attempt`:
it calls `record_429` with its *default* backoff and returns the duration
the worker itself then sleeps. -/
def on429 (rl : RateLimiter) (now : ℚ) (attempt : Nat) (jitter : ℚ) :
    RateLimiter × ℚ :=
  (rl.record_429 now, min ((2:ℚ) ^ (attempt + 1)) 60 * jitter)

/-- A body of 1000 `'a'` characters: large enough to pass the minimum-size
check and free of block indicators. -/
def cexBody : String := String.mk (List.replicate 1000 'a')

/-- A parse oracle on which every selector yields no results, so
extraction defaults every field. -/
def cexTree : XPathTree := fun _ => Except.ok []

/-! ## `save_batch` (DIDRepChecker.py lines 450–477)

The output file is modelled as `Option (List (FileLine α))`: `none` means
the file does not exist, `some content` its current lines. A flush checks
existence (by opening for read), opens for append, writes the header line
only when the file did not exist, appends one data line per buffered row,
and clears the buffer — all inside a `try` whose failure (modelled by
`writeOk = false`) leaves the buffer untouched. The single `writerows`
call is modelled as atomic. -/

/-- One line of the output file: the header row or a data row. -/
inductive FileLine (α : Type) where
  | header
  | data (row : α)
deriving Repr, DecidableEq

/-- `save_batch`: returns (file after the call, buffer after the call,
whether a write was performed). -/
def save_batch {α : Type} (fs : Option (List (FileLine α)))
    (buffer : List α) (writeOk : Bool) :
    Option (List (FileLine α)) × List α × Bool :=
  if buffer.isEmpty then (fs, buffer, false)
  else if writeOk = false then (fs, buffer, false)
  else
    (some (fs.getD [] ++
        (if fs.isNone then [FileLine.header] else []) ++
        buffer.map FileLine.data),
      [], true)

/-- A whole history of flushes (each with its buffer and write success),
as performed across batches, at shutdown, and on later re-runs against the
same output file. -/
def runFlushes {α : Type} (fs : Option (List (FileLine α))) :
    List (List α × Bool) → Option (List (FileLine α))
  | [] => fs
  | f :: rest => runFlushes (save_batch fs f.1 f.2).1 rest

def isHeaderLine {α : Type} : FileLine α → Bool
  | .header => true
  | .data _ => false

/-- Number of header rows in a (possibly non-existent) file. -/
def headerCount {α : Type} (fs : Option (List (FileLine α))) : Nat :=
  ((fs.getD []).filter isHeaderLine).length

/-! ## Theorems -/

theorem clean_number_all_digits (s : List Char) :
    ∀ c ∈ clean_number s, c.isDigit := by
  intro c hc
  simp only [clean_number] at hc
  split at hc
  · exact (List.mem_filter.mp (List.mem_of_mem_tail hc)).2
  · exact (List.mem_filter.mp hc).2

theorem clean_number_of_digits (s : List Char)
    (h : ∀ c ∈ s, c.isDigit) (hlen : s.length ≠ 11) :
    clean_number s = s := by
  have hf : s.filter Char.isDigit = s := List.filter_eq_self.mpr h
  unfold clean_number
  simp only [hf]
  rw [if_neg]
  rintro ⟨-, h11⟩
  exact hlen h11

/-! ## Claim C1 -/

/-- **C1.** Normalization keeps only digits and drops a leading `'1'` from
an 11-digit result; a record is appended by the reader iff the normalized
form has exactly 10 digits (so an accepted record is never 9 or 11 digits:
it consists of exactly 10 digit characters);
`clean_number "+1 (555) 123-4567" = "5551234567"`; and a string that is
already exactly 10 digits is returned unchanged. -/
theorem claim_C1 :
    (∀ st line, (processData st line).numbers =
        (if (clean_number (extractCell line)).length = 10
         then st.numbers ++ [clean_number (extractCell line)]
         else st.numbers)) ∧
    (∀ raw, ∀ c ∈ clean_number raw, c.isDigit) ∧
    clean_number "+1 (555) 123-4567".toList = "5551234567".toList ∧
    (∀ s : List Char, (∀ c ∈ s, c.isDigit) → s.length = 10 →
      clean_number s = s) := by
  refine ⟨?_, clean_number_all_digits, by decide, ?_⟩
  · intro st line
    simp only [processData]
    split
    · simp_all
    · split <;> simp_all
  · intro s hdig hlen
    exact clean_number_of_digits s hdig (by omega)

/-- Witness for C1: the hypothesis-bearing conjuncts evaluated at concrete
inputs. -/
theorem claim_C1_witness :
    (processData initRead "5551234567".toList).numbers =
      (if (clean_number (extractCell "5551234567".toList)).length = 10
       then initRead.numbers ++ [clean_number (extractCell "5551234567".toList)]
       else initRead.numbers) ∧
    clean_number "1234512345".toList = "1234512345".toList :=
  ⟨claim_C1.1 initRead "5551234567".toList,
   claim_C1.2.2.2 "1234512345".toList (by decide) (by decide)⟩

/-! ## Structural lemmas about the reader -/

theorem processData_hasHeader (st : ReadState) (line : List Char) :
    (processData st line).hasHeader = st.hasHeader := by
  simp only [processData]
  split
  · rfl
  · split
    · rfl
    · rfl

theorem processData_firstLine (st : ReadState) (line : List Char) :
    (processData st line).firstLine = st.firstLine := by
  simp only [processData]
  split
  · rfl
  · split
    · rfl
    · rfl

theorem afterHeaderCheck_hasHeader (st : ReadState) (line : List Char) :
    (afterHeaderCheck st line).hasHeader = st.hasHeader := by
  simp only [afterHeaderCheck]
  split
  · rfl
  · exact processData_hasHeader st line

/-- `processLine` unfolded: strip the line, skip it when blank, run header
detection when this is the first non-blank line, and otherwise extract
data (after the redundant header/line-count guard). -/
theorem processLine_eq (st : ReadState) (rawLine : List Char) :
    processLine st rawLine =
      if pyStrip rawLine = [] then { st with lineCount := st.lineCount + 1 }
      else if st.firstLine then
        (if isHeaderCell (extractCell (pyStrip rawLine)) then
           { st with lineCount := st.lineCount + 1, firstLine := false, hasHeader := true }
         else afterHeaderCheck
           { st with lineCount := st.lineCount + 1, firstLine := false }
           (pyStrip rawLine))
      else afterHeaderCheck { st with lineCount := st.lineCount + 1 }
        (pyStrip rawLine) := rfl

theorem processLine_blank (st : ReadState) (line : List Char)
    (hb : pyStrip line = []) :
    processLine st line = { st with lineCount := st.lineCount + 1 } := by
  rw [processLine_eq, if_pos hb]

/-! ## Claim C7 -/

/-- **C7.** Header detection runs only on the first non-blank line and
classifies it as a header iff the first cell contains a letter, or is
shorter than 7 characters, or contains no digit, or cleans to fewer than
10 digits; `"Phone Number"` is a header, `"5551234567"` is data. -/
theorem claim_C7 :
    (∀ cell : List Char,
        isHeaderCell cell = true ↔
          ((∃ c ∈ cell, c.isAlpha) ∨ cell.length < 7 ∨
            (¬ ∃ c ∈ cell, c.isDigit) ∨ (clean_number cell).length < 10)) ∧
    (∀ st line, st.firstLine = false →
        (processLine st line).hasHeader = st.hasHeader) ∧
    (∀ st line, pyStrip line = [] →
        (processLine st line).firstLine = st.firstLine ∧
        (processLine st line).hasHeader = st.hasHeader) ∧
    (read_numbers_lines ["Phone Number".toList]).hasHeader = true ∧
    (read_numbers_lines ["Phone Number".toList]).numbers = [] ∧
    (read_numbers_lines ["5551234567".toList]).hasHeader = false ∧
    (read_numbers_lines ["5551234567".toList]).numbers =
      ["5551234567".toList] := by
  refine ⟨?_, ?_, ?_, by decide, by decide, by decide, by decide⟩
  · intro cell
    simp only [isHeaderCell, Bool.or_eq_true, List.any_eq_true,
      decide_eq_true_eq, Bool.not_eq_true', List.any_eq_false]
    constructor
    · rintro (((h | h) | h) | h)
      · exact Or.inl h
      · exact Or.inr (Or.inl h)
      · refine Or.inr (Or.inr (Or.inl ?_))
        rintro ⟨c, hc, hd⟩
        simp [h c hc] at hd
      · exact Or.inr (Or.inr (Or.inr h))
    · rintro (h | h | h | h)
      · exact Or.inl (Or.inl (Or.inl h))
      · exact Or.inl (Or.inl (Or.inr h))
      · refine Or.inl (Or.inr ?_)
        intro c hc
        by_contra hd
        exact h ⟨c, hc, by simpa using hd⟩
      · exact Or.inr h
  · intro st line hfl
    rw [processLine_eq, hfl]
    by_cases hb : pyStrip line = []
    · rw [if_pos hb]
    · rw [if_neg hb, if_neg Bool.false_ne_true]
      exact afterHeaderCheck_hasHeader _ _
  · intro st line hblank
    rw [processLine_blank st line hblank]
    exact ⟨rfl, rfl⟩

/-- Witness for C7: the hypothesis-bearing conjuncts at concrete inputs. -/
theorem claim_C7_witness :
    isHeaderCell "Phone Number".toList = true ∧
    (processLine { initRead with firstLine := false }
        "Phone Number".toList).hasHeader =
      ({ initRead with firstLine := false } : ReadState).hasHeader ∧
    (processLine initRead "   ".toList).firstLine = initRead.firstLine :=
  ⟨(claim_C7.1 "Phone Number".toList).mpr (Or.inl ⟨'P', by decide, by decide⟩),
   claim_C7.2.1 _ "Phone Number".toList rfl,
   (claim_C7.2.2.1 initRead "   ".toList (by decide)).1⟩

/-! ## Claim C5 -/

/-- **C5 counterexample.** The claim says every non-blank data line is
either appended as a valid record or counted as rejected. The second line
`"---"` is non-blank and is a data line (the first line `"5551234567"` is
data, so no header is in play), yet processing it leaves both the record
list and the rejected count unchanged: its cleaned form is empty, and the
code counts a rejection only when the cleaned form is non-empty
(`elif cleaned:`). -/
theorem claim_C5_counterexample :
    pyStrip "---".toList ≠ [] ∧
    (read_numbers_lines ["5551234567".toList, "---".toList]).hasHeader
      = false ∧
    (read_numbers_lines ["5551234567".toList, "---".toList]).numbers =
      (read_numbers_lines ["5551234567".toList]).numbers ∧
    (read_numbers_lines ["5551234567".toList, "---".toList]).skipped =
      (read_numbers_lines ["5551234567".toList]).skipped := by
  decide

/-- **C5 (amended).** For every non-blank data line whose normalized form
is *non-empty*, the reader either appends a valid 10-digit record or
increments the rejected count, exactly one of the two; a non-blank line
whose normalized form is empty affects neither, blank lines affect
neither, and a failure to open the input yields an empty result set
without raising. -/
theorem claim_C5 :
    (∀ st line, (clean_number (extractCell line)).length = 10 →
        (processData st line).numbers =
          st.numbers ++ [clean_number (extractCell line)] ∧
        (processData st line).skipped = st.skipped) ∧
    (∀ st line, (clean_number (extractCell line)).length ≠ 10 →
        clean_number (extractCell line) ≠ [] →
        (processData st line).numbers = st.numbers ∧
        (processData st line).skipped = st.skipped + 1) ∧
    (∀ st line, clean_number (extractCell line) = [] →
        processData st line = st) ∧
    (∀ st line, pyStrip line = [] →
        (processLine st line).numbers = st.numbers ∧
        (processLine st line).skipped = st.skipped) ∧
    (read_numbers none).numbers = [] ∧ (read_numbers none).skipped = 0 := by
  refine ⟨?_, ?_, ?_, ?_, rfl, rfl⟩
  · intro st line h
    simp only [processData]
    rw [if_pos h]
    exact ⟨rfl, rfl⟩
  · intro st line h hne
    simp only [processData]
    rw [if_neg h, if_pos hne]
    exact ⟨rfl, rfl⟩
  · intro st line h
    simp only [processData]
    rw [if_neg, if_neg]
    · simp [h]
    · rw [h]
      simp
  · intro st line hb
    rw [processLine_blank st line hb]
    exact ⟨rfl, rfl⟩

/-- Witness for C5: each hypothesis-bearing conjunct applied at a concrete
input. -/
theorem claim_C5_witness :
    ((processData initRead "5551234567".toList).numbers =
        initRead.numbers ++ [clean_number (extractCell "5551234567".toList)] ∧
      (processData initRead "5551234567".toList).skipped =
        initRead.skipped) ∧
    ((processData initRead "123".toList).numbers = initRead.numbers ∧
      (processData initRead "123".toList).skipped = initRead.skipped + 1) ∧
    processData initRead "---".toList = initRead ∧
    ((processLine initRead "  ".toList).numbers = initRead.numbers ∧
      (processLine initRead "  ".toList).skipped = initRead.skipped) :=
  ⟨claim_C5.1 initRead "5551234567".toList (by decide),
   claim_C5.2.1 initRead "123".toList (by decide) (by decide),
   claim_C5.2.2.1 initRead "---".toList (by decide),
   claim_C5.2.2.2.1 initRead "  ".toList (by decide)⟩

theorem rlApply_rate (st : RateLimiter) (op : RLOp) :
    (rlApply st op).rate = st.rate := by
  cases op with
  | refill now =>
      simp only [rlApply, rlRefillStep]
      split <;> rfl
  | snap now => rfl
  | throttle now b => rfl

theorem rlApply_capacity (st : RateLimiter) (op : RLOp) :
    (rlApply st op).capacity = st.capacity := by
  cases op with
  | refill now =>
      simp only [rlApply, rlRefillStep]
      split <;> rfl
  | snap now => rfl
  | throttle now b => rfl

theorem rlRefillStep_inv (st : RateLimiter) (now : ℚ)
    (hcap : 1 ≤ st.capacity) (hrate : 0 ≤ st.rate)
    (hnow : st.updated_at ≤ now) (h : RLInv st) :
    RLInv (rlRefillStep st now) := by
  obtain ⟨h0, hc⟩ := h
  have helap : 0 ≤ (now - st.updated_at) * st.rate :=
    mul_nonneg (by linarith) hrate
  simp only [rlRefillStep]
  split
  · constructor
    · simp only
      exact le_min (by linarith) (by linarith)
    · simp only
      exact min_le_left _ _
  · rename_i hge
    push_neg at hge
    constructor
    · simp only
      linarith
    · simp only
      have := min_le_left st.capacity (st.tokens + (now - st.updated_at) * st.rate)
      linarith

theorem rlSnapStep_inv (st : RateLimiter) (now : ℚ)
    (hcap : 1 ≤ st.capacity) :
    RLInv (rlSnapStep st now) := by
  constructor
  · simp only [rlSnapStep]
    linarith
  · simp only [rlSnapStep]
    linarith

theorem record_429_inv (st : RateLimiter) (now b : ℚ)
    (hcap : 1 ≤ st.capacity) (hrate : 0 ≤ st.rate) (h : RLInv st) :
    RLInv (st.record_429 now b) := by
  obtain ⟨h0, hc⟩ := h
  constructor
  · exact le_max_left 0 _
  · simp only [RateLimiter.record_429]
    apply max_le (by linarith)
    nlinarith

theorem rlRun_inv (ops : List RLOp) :
    ∀ st : RateLimiter, 1 ≤ st.capacity → 0 ≤ st.rate → RLInv st →
      rlOpsOK st ops → RLInv (rlRun st ops) := by
  induction ops with
  | nil => intro st _ _ h _; exact h
  | cons op rest ih =>
      intro st hcap hrate h hok
      obtain ⟨hop, hrest⟩ := hok
      have hstep : RLInv (rlApply st op) := by
        cases op with
        | refill now => exact rlRefillStep_inv st now hcap hrate hop h
        | snap now => exact rlSnapStep_inv st now hcap
        | throttle now b => exact record_429_inv st now b hcap hrate h
      have hcap' : 1 ≤ (rlApply st op).capacity := by
        rw [rlApply_capacity]; exact hcap
      have hrate' : 0 ≤ (rlApply st op).rate := by
        rw [rlApply_rate]; exact hrate
      exact ih (rlApply st op) hcap' hrate' hstep hrest

/-! ## Claim C6 -/

/-- **C6.** The token count stays in `[0, capacity]`: it holds initially,
is preserved by the atomic `acquire` (including the snap-to-full branch
and the final deduction) and by `record_429`, and holds after any
admissible interleaving of acquire segments and throttle signals starting
from a freshly constructed limiter. -/
theorem claim_C6 :
    (∀ rate now : ℚ, RLInv (mkRateLimiter rate now)) ∧
    (∀ (st : RateLimiter) (now : ℚ), 1 ≤ st.capacity → 0 ≤ st.rate →
        st.updated_at ≤ now → RLInv st → RLInv (st.acquire now).2) ∧
    (∀ (st : RateLimiter) (now b : ℚ), 1 ≤ st.capacity → 0 ≤ st.rate →
        RLInv st → RLInv (st.record_429 now b)) ∧
    (∀ (rate t0 : ℚ) (ops : List RLOp), 0 ≤ rate →
        rlOpsOK (mkRateLimiter rate t0) ops →
        RLInv (rlRun (mkRateLimiter rate t0) ops)) := by
  refine ⟨?_, ?_, record_429_inv, ?_⟩
  · intro rate now
    constructor
    · simp only [mkRateLimiter]
      exact le_trans zero_le_one (le_max_right rate 1)
    · simp only [mkRateLimiter, le_refl]
  · intro st now hcap hrate hnow h
    obtain ⟨h0, hc⟩ := h
    have hcd : now ≤ now + max 0 (st.cooldown_until - now) :=
      le_add_of_nonneg_right (le_max_left 0 _)
    have helap : 0 ≤ (now + max 0 (st.cooldown_until - now) - st.updated_at) * st.rate :=
      mul_nonneg (by linarith) hrate
    simp only [RateLimiter.acquire]
    split
    · constructor
      · simp only
        linarith
      · simp only
        linarith
    · rename_i hge
      push_neg at hge
      constructor
      · simp only
        linarith
      · simp only
        have := min_le_left st.capacity
          (st.tokens + (now + max 0 (st.cooldown_until - now) - st.updated_at) * st.rate)
        linarith
  · intro rate t0 ops hrate hok
    refine rlRun_inv ops _ ?_ hrate ?_ hok
    · exact le_max_right rate 1
    · exact ⟨le_trans zero_le_one (le_max_right rate 1), le_refl _⟩

/-- Witness for C6 at concrete inputs: rate 5, one full acquire (split
into its segments), a throttle signal, and another acquire attempt. -/
theorem claim_C6_witness :
    RLInv (mkRateLimiter 5 0) ∧
    RLInv ((mkRateLimiter 5 0).acquire 1).2 ∧
    RLInv ((mkRateLimiter 5 0).record_429 1 10) ∧
    RLInv (rlRun (mkRateLimiter 5 0)
      [RLOp.refill 1, RLOp.throttle 1 10, RLOp.refill 2, RLOp.snap 3]) := by
  refine ⟨claim_C6.1 5 0,
    claim_C6.2.1 (mkRateLimiter 5 0) 1 ?_ ?_ ?_ (claim_C6.1 5 0),
    claim_C6.2.2.1 (mkRateLimiter 5 0) 1 10 ?_ ?_ (claim_C6.1 5 0),
    claim_C6.2.2.2 5 0 [RLOp.refill 1, RLOp.throttle 1 10, RLOp.refill 2,
      RLOp.snap 3] ?_ ?_⟩
  · simp [mkRateLimiter]
  · norm_num [mkRateLimiter]
  · norm_num [mkRateLimiter]
  · simp [mkRateLimiter]
  · norm_num [mkRateLimiter]
  · norm_num
  · refine ⟨by norm_num [mkRateLimiter], by norm_num [mkRateLimiter,
      rlApply, rlRefillStep], ?_, ?_⟩
    · norm_num [mkRateLimiter, rlApply, rlRefillStep, RateLimiter.record_429]
    · exact ⟨trivial, trivial⟩

/-! ## Claim C3 -/

theorem acquire_no_block (st : RateLimiter) (t : ℚ)
    (hcd : st.cooldown_until = 0) (ht : 0 ≤ t) (hup : st.updated_at = t)
    (h1 : 1 ≤ st.tokens) (h2 : st.tokens ≤ st.capacity) :
    st.acquire t = (0, { st with tokens := st.tokens - 1 }) := by
  simp only [RateLimiter.acquire]
  rw [hcd, hup]
  have hmax : max (0:ℚ) (0 - t) = 0 := max_eq_left (by linarith)
  rw [hmax]
  simp only [add_zero, sub_self, zero_mul]
  rw [min_eq_right h2, if_neg (not_lt.mpr h1)]

theorem acquireN_no_block (k : ℕ) :
    ∀ (st : RateLimiter) (t : ℚ), st.cooldown_until = 0 → 0 ≤ t →
      st.updated_at = t → (k : ℚ) ≤ st.tokens → st.tokens ≤ st.capacity →
      acquireN k st t =
        (List.replicate k 0, { st with tokens := st.tokens - k }) := by
  induction k with
  | zero =>
      intro st t _ _ _ _ _
      simp [acquireN]
  | succ k ih =>
      intro st t hcd ht hup hk h2
      have hk' : (k : ℚ) + 1 ≤ st.tokens := by push_cast at hk; linarith
      have h1 : 1 ≤ st.tokens := by
        have : (0:ℚ) ≤ (k : ℚ) := Nat.cast_nonneg k
        linarith
      simp only [acquireN]
      rw [acquire_no_block st t hcd ht hup h1 h2]
      rw [ih { st with tokens := st.tokens - 1 } t hcd ht hup
        (by simp only; linarith) (by simp only; linarith)]
      dsimp only
      rw [List.replicate_succ]
      refine congrArg _ ?_
      congr 1
      push_cast
      ring

/-- **C3.** When fewer than 1 token is available after refill, `acquire`
suspends for `(1 − tokens)/rate` seconds and leaves the bucket at
`capacity − 1` (snapped to full, then one token deducted); consequently a
fresh limiter of integral rate `n` grants `n` acquisitions at one instant
with zero suspension, and the `(n+1)`-th acquisition at the same instant
suspends for `1/n` seconds. -/
theorem claim_C3 :
    (∀ (st : RateLimiter) (now : ℚ),
        st.cooldown_until ≤ now → (1:ℚ)/1000000 ≤ st.rate →
        min st.capacity (st.tokens + (now - st.updated_at) * st.rate) < 1 →
        (st.acquire now).1 =
          (1 - min st.capacity
              (st.tokens + (now - st.updated_at) * st.rate)) / st.rate ∧
        (st.acquire now).2.tokens = st.capacity - 1) ∧
    (∀ (n : ℕ) (t : ℚ), 1 ≤ n → 0 ≤ t →
        (acquireN n (mkRateLimiter n t) t).1 = List.replicate n 0 ∧
        ((acquireN n (mkRateLimiter n t) t).2.acquire t).1 = 1 / n) := by
  constructor
  · intro st now hcd hrate hdef
    have hmax : max (0:ℚ) (st.cooldown_until - now) = 0 :=
      max_eq_left (by linarith)
    have hrmax : max st.rate ((1:ℚ)/1000000) = st.rate :=
      max_eq_left (by linarith)
    simp only [RateLimiter.acquire, hmax, add_zero]
    rw [if_pos hdef, hrmax]
    constructor
    · simp only
      ring
    · rfl
  · intro n t hn ht
    have hn1 : (1:ℚ) ≤ (n:ℚ) := by exact_mod_cast hn
    have hcap : max (n:ℚ) 1 = (n:ℚ) := max_eq_left hn1
    have hrun := acquireN_no_block n (mkRateLimiter n t) t rfl ht rfl
      (by simp only [mkRateLimiter]; rw [hcap]) (le_refl _)
    rw [hrun]
    refine ⟨rfl, ?_⟩
    simp only [RateLimiter.acquire, mkRateLimiter]
    rw [hcap]
    have hmax : max (0:ℚ) (0 - t) = 0 := max_eq_left (by linarith)
    rw [hmax]
    simp only [add_zero, sub_self, zero_mul, zero_add]
    rw [min_eq_right (by linarith : (0:ℚ) ≤ (n:ℚ)),
      if_pos (by norm_num : (0:ℚ) < 1)]
    have hrmax : max (n:ℚ) ((1:ℚ)/1000000) = (n:ℚ) :=
      max_eq_left (by linarith)
    rw [hrmax]
    simp

/-- Witness for C3: a blocked acquire on a drained bucket
(rate 5, capacity 5, 0 tokens), and the 5-then-1 acquisition pattern from
a fresh limiter of rate 5. -/
theorem claim_C3_witness :
    (((⟨5, 5, 0, 0, 0⟩ : RateLimiter).acquire 0).1 =
        (1 - min (5:ℚ) (0 + ((0:ℚ) - 0) * 5)) / 5 ∧
      ((⟨5, 5, 0, 0, 0⟩ : RateLimiter).acquire 0).2.tokens = (5:ℚ) - 1) ∧
    (acquireN 5 (mkRateLimiter 5 0) 0).1 = List.replicate 5 0 ∧
    ((acquireN 5 (mkRateLimiter 5 0) 0).2.acquire 0).1 = 1 / 5 :=
  ⟨claim_C3.1 ⟨5, 5, 0, 0, 0⟩ 0 (by norm_num) (by norm_num) (by norm_num),
   (claim_C3.2 5 0 (by norm_num) (by norm_num)).1,
   ((claim_C3.2 5 0 (by norm_num) (by norm_num)).2.trans (by norm_num))⟩

theorem extractField_eq_firstNonEmptyStripped (xp : XPathTree)
    (paths : List String) :
    extractField xp paths = (firstNonEmptyStripped xp paths).getD "" := by
  induction paths with
  | nil => rfl
  | cons p rest ih =>
      simp only [extractField, firstNonEmptyStripped, List.findSome?_cons]
      cases hxp : xp p with
      | error e => simpa [firstNonEmptyStripped] using ih
      | ok l =>
          cases l with
          | nil => simpa [firstNonEmptyStripped] using ih
          | cons first tail =>
              by_cases ht : pyTrim first = ""
              · simpa [ht, firstNonEmptyStripped] using ih
              · simp [ht]

theorem firstNonEmptyStripped_ne_empty (xp : XPathTree)
    (paths : List String) (s : String)
    (h : firstNonEmptyStripped xp paths = some s) : s ≠ "" := by
  induction paths with
  | nil => simp [firstNonEmptyStripped] at h
  | cons p rest ih =>
      simp only [firstNonEmptyStripped, List.findSome?_cons] at h
      cases hxp : xp p with
      | error e =>
          rw [hxp] at h
          dsimp only at h
          exact ih (by simpa [firstNonEmptyStripped] using h)
      | ok l =>
          cases l with
          | nil =>
              rw [hxp] at h
              dsimp only at h
              exact ih (by simpa [firstNonEmptyStripped] using h)
          | cons first tail =>
              rw [hxp] at h
              dsimp only at h
              by_cases ht : pyTrim first = ""
              · rw [if_pos ht] at h
                dsimp only at h
                exact ih (by simpa [firstNonEmptyStripped] using h)
              · rw [if_neg ht] at h
                dsimp only at h
                simp only [Option.some.injEq] at h
                exact h ▸ ht

/-! ## Claim C8 -/

/-- **C8.** For every document and field, the extractor binds the field to
the first selector result that strips to a non-empty text, reputation
defaulting to `"Not Found"` and every other field to `""` when no selector
matches; a parse-level exception yields the `"Parse Error"` marker in
reputation with all other fields empty; the extractor is a total function
(it never raises). -/
theorem claim_C8 :
    (∀ (xp : XPathTree) (phone ts : String),
        parse_html_fast (some xp) phone ts =
          [("phone_number", phone),
           ("reputation",
             (firstNonEmptyStripped xp reputationPaths).getD "Not Found"),
           ("user_reports",
             (firstNonEmptyStripped xp userReportsPaths).getD ""),
           ("total_calls",
             (firstNonEmptyStripped xp totalCallsPaths).getD ""),
           ("last_call",
             (firstNonEmptyStripped xp lastCallPaths).getD ""),
           ("scraped_at", ts)]) ∧
    (∀ phone ts : String,
        parse_html_fast none phone ts =
          [("phone_number", phone), ("reputation", "Parse Error"),
           ("user_reports", ""), ("total_calls", ""), ("last_call", ""),
           ("scraped_at", ts)]) := by
  refine ⟨?_, fun phone ts => rfl⟩
  intro xp phone ts
  simp only [parse_html_fast, XPATHS, List.map_cons, List.map_nil,
    List.cons_append, List.nil_append, List.cons.injEq, and_true, true_and]
  refine ⟨?_, ?_, ?_, ?_⟩
  · rw [extractField_eq_firstNonEmptyStripped]
    cases h : firstNonEmptyStripped xp reputationPaths with
    | none => simp
    | some v =>
        have := firstNonEmptyStripped_ne_empty xp reputationPaths v h
        simp [this]
  · rw [extractField_eq_firstNonEmptyStripped]
    simp
  · rw [extractField_eq_firstNonEmptyStripped]
    simp
  · rw [extractField_eq_firstNonEmptyStripped]
    simp

/-! ## Claim C2 -/

theorem listContainsSub_replicate (needle : List Char) (n : Nat) (a : Char)
    (h : ∃ c ∈ needle, c ≠ a) :
    listContainsSub (List.replicate n a) needle = false := by
  simp only [listContainsSub, List.any_eq_false, List.mem_range,
    Bool.not_eq_true]
  intro i _
  rw [List.drop_replicate]
  by_contra hp
  rw [Bool.not_eq_false] at hp
  rw [List.isPrefixOf_iff_prefix] at hp
  obtain ⟨c, hc, hne⟩ := h
  exact hne (List.eq_of_mem_replicate (hp.subset hc))

theorem cexBody_no_block : hasBlockIndicator cexBody = false := by
  have hlow : Char.toLower 'a' = 'a' := rfl
  have htl : cexBody.toList.map Char.toLower = List.replicate 1000 'a' := by
    show (List.replicate 1000 'a').map Char.toLower = _
    rw [List.map_replicate, hlow]
  simp only [hasBlockIndicator, htl, block_indicators, List.any_eq_false,
    List.mem_cons, List.not_mem_nil, or_false, Bool.not_eq_true]
  rintro ind (rfl | rfl | rfl | rfl | rfl | rfl | rfl | rfl) <;>
    exact listContainsSub_replicate _ _ _ (by decide)

theorem cexBody_length : cexBody.length = 1000 := by
  show (List.replicate 1000 'a').length = 1000
  rw [List.length_replicate]

/-- **C2 counterexample.** A terminal Success whose extracted reputation
is `"Not Found"` (a 200 response, no block indicator, body large enough,
but no selector matching) updates *no* counter: the claim requires exactly
one of success/failed to be incremented for every terminal outcome. -/
theorem claim_C2_counterexample :
    (fetch_single "5551234567" "ts"
        [AttemptEvent.response 200 cexBody (some cexTree)] initStats).2 =
      initStats ∧
    ((fetch_single "5551234567" "ts"
        [AttemptEvent.response 200 cexBody (some cexTree)]
        initStats).1.lookup "reputation") = some "Not Found" := by
  have hparse : parse_html_fast (some cexTree) "5551234567" "ts" =
      [("phone_number", "5551234567"), ("reputation", "Not Found"),
       ("user_reports", ""), ("total_calls", ""), ("last_call", ""),
       ("scraped_at", "ts")] := rfl
  have hmem : ((parse_html_fast (some cexTree) "5551234567"
      "ts").lookup "reputation").getD "" ∈ noDataMarkers := by
    rw [hparse]
    decide
  have hfetch : fetch_single "5551234567" "ts"
      [AttemptEvent.response 200 cexBody (some cexTree)] initStats =
      (parse_html_fast (some cexTree) "5551234567" "ts", initStats) := by
    simp only [fetch_single, fetchGo]
    norm_num [cexBody_no_block, cexBody_length, hmem]
  rw [hfetch, hparse]
  exact ⟨rfl, rfl⟩

/-- **C2 (amended).** For every processed record, at the moment its
terminal outcome is produced exactly one of the success/failed counters is
incremented — *except* for a Success whose extracted reputation is empty,
`"Not Found"`, or `"Parse Error"`, which increments neither; each
non-terminal 429 additionally increments the rate-limited counter; the
other counters are never touched by the worker. -/
theorem claim_C2 :
    (∀ (events : List AttemptEvent) (phone ts : String) (attempt : Nat)
        (s : Stats),
        ((fetchGo phone ts events attempt s).2.success = s.success + 1 ∧
          (fetchGo phone ts events attempt s).2.failed = s.failed) ∨
        ((fetchGo phone ts events attempt s).2.success = s.success ∧
          (fetchGo phone ts events attempt s).2.failed = s.failed + 1) ∨
        ((fetchGo phone ts events attempt s).2.success = s.success ∧
          (fetchGo phone ts events attempt s).2.failed = s.failed ∧
          ((fetchGo phone ts events attempt s).1.lookup "reputation").getD ""
            ∈ noDataMarkers)) ∧
    (∀ (phone ts : String) (rest : List AttemptEvent) (attempt : Nat)
        (s : Stats) (body : String) (tree : Option XPathTree),
        fetchGo phone ts (AttemptEvent.response 429 body tree :: rest)
            attempt s =
          fetchGo phone ts rest (attempt + 1)
            { s with rate_limited := s.rate_limited + 1 }) ∧
    (∀ (events : List AttemptEvent) (phone ts : String) (attempt : Nat)
        (s : Stats),
        (fetchGo phone ts events attempt s).2.total = s.total ∧
        (fetchGo phone ts events attempt s).2.skipped_invalid =
          s.skipped_invalid) := by
  refine ⟨?_, ?_, ?_⟩
  · intro events
    induction events with
    | nil =>
        intro phone ts attempt s
        exact Or.inr (Or.inl ⟨rfl, rfl⟩)
    | cons ev rest ih =>
        intro phone ts attempt s
        cases ev with
        | netError =>
            simp only [fetchGo]
            exact ih phone ts (attempt + 1) s
        | response status body tree =>
            simp only [fetchGo]
            by_cases h403 : status = 403
            · rw [if_pos h403]
              exact Or.inr (Or.inl ⟨rfl, rfl⟩)
            · rw [if_neg h403]
              by_cases h429 : status = 429
              · rw [if_pos h429]
                exact ih phone ts (attempt + 1)
                  { s with rate_limited := s.rate_limited + 1 }
              · rw [if_neg h429]
                by_cases h200 : status = 200
                · rw [if_pos h200]
                  by_cases hb : hasBlockIndicator body = true
                  · rw [if_pos hb]
                    exact Or.inr (Or.inl ⟨rfl, rfl⟩)
                  · rw [if_neg hb]
                    by_cases hlen : body.length < 1000
                    · rw [if_pos hlen]
                      exact Or.inr (Or.inl ⟨rfl, rfl⟩)
                    · rw [if_neg hlen]
                      by_cases hnd :
                        ((parse_html_fast tree phone ts).lookup
                          "reputation").getD "" ∈ noDataMarkers
                      · rw [if_pos hnd]
                        exact Or.inr (Or.inr ⟨rfl, rfl, hnd⟩)
                      · rw [if_neg hnd]
                        exact Or.inl ⟨rfl, rfl⟩
                · rw [if_neg h200]
                  by_cases h4xx : 400 ≤ status ∧ status < 500
                  · rw [if_pos h4xx]
                    exact Or.inr (Or.inl ⟨rfl, rfl⟩)
                  · rw [if_neg h4xx]
                    exact ih phone ts (attempt + 1) s
  · intro phone ts rest attempt s body tree
    simp only [fetchGo]
    norm_num
  · intro events
    induction events with
    | nil =>
        intro phone ts attempt s
        exact ⟨rfl, rfl⟩
    | cons ev rest ih =>
        intro phone ts attempt s
        cases ev with
        | netError =>
            simp only [fetchGo]
            exact ih phone ts (attempt + 1) s
        | response status body tree =>
            simp only [fetchGo]
            by_cases h403 : status = 403
            · rw [if_pos h403]
              exact ⟨rfl, rfl⟩
            · rw [if_neg h403]
              by_cases h429 : status = 429
              · rw [if_pos h429]
                exact ih phone ts (attempt + 1)
                  { s with rate_limited := s.rate_limited + 1 }
              · rw [if_neg h429]
                by_cases h200 : status = 200
                · rw [if_pos h200]
                  by_cases hb : hasBlockIndicator body = true
                  · rw [if_pos hb]
                    exact ⟨rfl, rfl⟩
                  · rw [if_neg hb]
                    by_cases hlen : body.length < 1000
                    · rw [if_pos hlen]
                      exact ⟨rfl, rfl⟩
                    · rw [if_neg hlen]
                      by_cases hnd :
                        ((parse_html_fast tree phone ts).lookup
                          "reputation").getD "" ∈ noDataMarkers
                      · rw [if_pos hnd]
                        exact ⟨rfl, rfl⟩
                      · rw [if_neg hnd]
                        exact ⟨rfl, rfl⟩
                · rw [if_neg h200]
                  by_cases h4xx : 400 ≤ status ∧ status < 500
                  · rw [if_pos h4xx]
                    exact ⟨rfl, rfl⟩
                  · rw [if_neg h4xx]
                    exact ih phone ts (attempt + 1) s

/-! ## Claim C4 -/

/-- **C4 counterexample.** On a 429 at attempt 0 with jitter 1, the
exponential wait is `min(2^1, 60) × 1 = 2` seconds, but the limiter's
throttle handler is called with its *default* backoff, setting
cooldown-until to `now + 10`, not `now + 2`: the backoff passed to the
handler is not the exponential wait the claim describes. -/
theorem claim_C4_counterexample :
    (on429 (mkRateLimiter 5 0) 0 0 1).1.cooldown_until = 10 ∧
    (on429 (mkRateLimiter 5 0) 0 0 1).2 = 2 ∧
    (on429 (mkRateLimiter 5 0) 0 0 1).1.cooldown_until ≠
      0 + (on429 (mkRateLimiter 5 0) 0 0 1).2 := by
  refine ⟨by norm_num [on429, RateLimiter.record_429, mkRateLimiter],
    by norm_num [on429], ?_⟩
  norm_num [on429, RateLimiter.record_429, mkRateLimiter]

/-- **C4 (amended).** On every 429 the worker increments the rate-limited
counter and retries (third conjunct of the claim-C2 theorem restated
here), calls the throttle handler with its *fixed default* backoff of 10
seconds, and itself sleeps the exponential wait
`min(2^(attempt+1), 60) × jitter`; the handler sets cooldown-until to
`now` plus the backoff it was passed and reduces tokens by half the
configured rate, floored at 0. -/
theorem claim_C4 :
    (∀ (rl : RateLimiter) (now : ℚ) (attempt : Nat) (jitter : ℚ),
        (on429 rl now attempt jitter).1 = rl.record_429 now 10 ∧
        (on429 rl now attempt jitter).2 =
          min ((2:ℚ) ^ (attempt + 1)) 60 * jitter) ∧
    (∀ (rl : RateLimiter) (now b : ℚ),
        (rl.record_429 now b).cooldown_until = now + b ∧
        (rl.record_429 now b).tokens =
          max 0 (rl.tokens - rl.rate * (1 / 2)) ∧
        0 ≤ (rl.record_429 now b).tokens) ∧
    (∀ (phone ts : String) (rest : List AttemptEvent) (attempt : Nat)
        (s : Stats) (body : String) (tree : Option XPathTree),
        (fetchGo phone ts (AttemptEvent.response 429 body tree :: rest)
            attempt s).1 =
          (fetchGo phone ts rest (attempt + 1)
            { s with rate_limited := s.rate_limited + 1 }).1 ∧
        (fetchGo phone ts (AttemptEvent.response 429 body tree :: rest)
            attempt s).2 =
          (fetchGo phone ts rest (attempt + 1)
            { s with rate_limited := s.rate_limited + 1 }).2) := by
  refine ⟨fun rl now attempt jitter => ⟨rfl, rfl⟩,
    fun rl now b => ⟨rfl, rfl, le_max_left 0 _⟩, ?_⟩
  intro phone ts rest attempt s body tree
  have h : fetchGo phone ts (AttemptEvent.response 429 body tree :: rest)
      attempt s =
      fetchGo phone ts rest (attempt + 1)
        { s with rate_limited := s.rate_limited + 1 } := by
    simp only [fetchGo]
    norm_num
  exact ⟨congrArg Prod.fst h, congrArg Prod.snd h⟩

theorem headerCount_data_rows {α : Type} (rows : List α) :
    (List.filter isHeaderLine (rows.map FileLine.data)).length = 0 := by
  induction rows with
  | nil => rfl
  | cons r rest ih => simp [isHeaderLine, ih]

theorem save_batch_headerCount {α : Type} (fs : Option (List (FileLine α)))
    (buffer : List α) (ok : Bool) :
    headerCount (save_batch fs buffer ok).1 ≤ max (headerCount fs) 1 := by
  simp only [save_batch]
  split
  · exact le_max_left _ _
  · split
    · exact le_max_left _ _
    · cases fs with
      | none =>
          simp only [headerCount, Option.getD, List.filter_append,
            List.length_append]
          simp [isHeaderLine, headerCount_data_rows]
      | some c =>
          simp only [headerCount, Option.getD, Option.isNone,
            List.filter_append, List.length_append]
          simp [headerCount_data_rows]

theorem save_batch_headerCount_of_some {α : Type} (c : List (FileLine α))
    (buffer : List α) (ok : Bool) :
    headerCount (save_batch (some c) buffer ok).1 = headerCount (some c) := by
  simp only [save_batch]
  split
  · rfl
  · split
    · rfl
    · simp only [headerCount, Option.getD, Option.isNone,
        List.filter_append, List.length_append]
      simp [headerCount_data_rows]

theorem save_batch_isSome {α : Type} (fs : Option (List (FileLine α)))
    (buffer : List α) (ok : Bool) (h : fs.isSome) :
    ((save_batch fs buffer ok).1).isSome := by
  simp only [save_batch]
  split
  · exact h
  · split
    · exact h
    · rfl

theorem runFlushes_headerCount {α : Type}
    (flushes : List (List α × Bool)) :
    ∀ fs : Option (List (FileLine α)), headerCount fs ≤ 1 →
      headerCount (runFlushes fs flushes) ≤ 1 := by
  induction flushes with
  | nil => intro fs h; exact h
  | cons f rest ih =>
      intro fs h
      refine ih _ ?_
      calc headerCount (save_batch fs f.1 f.2).1
          ≤ max (headerCount fs) 1 := save_batch_headerCount fs f.1 f.2
        _ ≤ 1 := max_le h le_rfl

/-! ## Claim C9 -/

/-- **C9.** Every flush appends: the file's previous content is a prefix
of its content after the flush; the header row is written iff the file did
not exist at the time of that flush (exactly one header when absent, none
added when present); and across any sequence of flushes and re-runs
against an output file that starts absent, the file never holds more than
one header row. -/
theorem claim_C9 :
    (∀ (α : Type) (fs : Option (List (FileLine α))) (buffer : List α)
        (ok : Bool), fs.getD [] <+: ((save_batch fs buffer ok).1.getD [])) ∧
    (∀ (α : Type) (buffer : List α), buffer ≠ [] →
        (save_batch (none : Option (List (FileLine α))) buffer true).1 =
          some (FileLine.header :: buffer.map FileLine.data)) ∧
    (∀ (α : Type) (c : List (FileLine α)) (buffer : List α), buffer ≠ [] →
        (save_batch (some c) buffer true).1 =
          some (c ++ buffer.map FileLine.data)) ∧
    (∀ (α : Type) (flushes : List (List α × Bool)),
        headerCount (runFlushes (none : Option (List (FileLine α)))
          flushes) ≤ 1) := by
  refine ⟨?_, ?_, ?_, ?_⟩
  · intro α fs buffer ok
    simp only [save_batch]
    split
    · exact List.prefix_refl _
    · split
      · exact List.prefix_refl _
      · simp only [Option.getD_some]
        exact ⟨_, by rw [List.append_assoc]⟩
  · intro α buffer hb
    simp only [save_batch]
    rw [if_neg (by simp [hb]), if_neg (by simp)]
    simp
  · intro α c buffer hb
    simp only [save_batch]
    rw [if_neg (by simp [hb]), if_neg (by simp)]
    simp
  · intro α flushes
    exact runFlushes_headerCount flushes none (by simp [headerCount])

/-- Witness for C9: concrete flushes of one row onto an absent and then an
existing file. -/
theorem claim_C9_witness :
    (save_batch (none : Option (List (FileLine Nat))) [7] true).1 =
      some (FileLine.header :: [7].map FileLine.data) ∧
    (save_batch (some [FileLine.header, FileLine.data 7]) [8] true).1 =
      some ([FileLine.header, FileLine.data 7] ++ [8].map FileLine.data) :=
  ⟨claim_C9.2.1 Nat [7] (by decide),
   claim_C9.2.2.1 Nat [FileLine.header, FileLine.data 7] [8] (by decide)⟩

/-! ## Claim C10 -/

/-- **C10.** A failed flush leaves the buffer (and the modelled file)
unchanged; the buffer is cleared exactly by a successful write of a
non-empty buffer; and flushing an empty buffer performs no write at all
and changes nothing. -/
theorem claim_C10 :
    (∀ (α : Type) (fs : Option (List (FileLine α))) (buffer : List α),
        (save_batch fs buffer false).2.1 = buffer ∧
        (save_batch fs buffer false).1 = fs ∧
        (save_batch fs buffer false).2.2 = false) ∧
    (∀ (α : Type) (fs : Option (List (FileLine α))) (buffer : List α),
        buffer ≠ [] →
        (save_batch fs buffer true).2.1 = [] ∧
        (save_batch fs buffer true).2.2 = true) ∧
    (∀ (α : Type) (fs : Option (List (FileLine α))) (ok : Bool),
        save_batch fs [] ok = (fs, [], false)) := by
  refine ⟨?_, ?_, ?_⟩
  · intro α fs buffer
    simp only [save_batch]
    split
    · exact ⟨rfl, rfl, rfl⟩
    · rw [if_pos trivial]
      exact ⟨rfl, rfl, rfl⟩
  · intro α fs buffer hb
    simp only [save_batch]
    rw [if_neg (by simp [hb]), if_neg (by simp)]
    exact ⟨rfl, rfl⟩
  · intro α fs ok
    simp only [save_batch]
    rw [if_pos (by simp)]

/-- Witness for C10: a successful flush of a one-row buffer clears it. -/
theorem claim_C10_witness :
    (save_batch (none : Option (List (FileLine Nat))) [3] true).2.1 = [] ∧
    (save_batch (none : Option (List (FileLine Nat))) [3] true).2.2 =
      true :=
  claim_C10.2.1 Nat none [3] (by decide)

end DIDRep
